import Mathlib

/-!
Shallow embedding of the luigi orchestration layer in src/main.py of the
edx_learner_attrition repository: the per-course task graph, its completion
markers, the week calculator and the two execution strategies (in-process
pipeline and Kubernetes job dispatch). Calendar timestamps are modelled at
day granularity; the scheduler semantics of luigi (a task whose output
target already exists is not re-run; a run resumes after a yielded dynamic
dependency completes and is abandoned when it fails) are made explicit as
small step functions over an event trace and a marker store.
-/

/-- Calendar date, the day-granularity model of a Python datetime. -/
structure Date where
  year : Int
  month : Nat
  day : Nat
deriving DecidableEq

/-- Day number of a civil date (days since 1970-01-01, proleptic Gregorian),
the standard days-from-civil computation; it gives date subtraction its usual
meaning of elapsed days. -/
def daysFromCivil (d : Date) : Int :=
  let y : Int := if d.month ≤ 2 then d.year - 1 else d.year
  let era : Int := Int.fdiv y 400
  let yoe : Int := y - era * 400
  let mp : Int := if 2 < d.month then (d.month : Int) - 3 else (d.month : Int) + 9
  let doy : Int := Int.fdiv (153 * mp + 2) 5 + (d.day : Int) - 1
  let doe : Int := yoe * 365 + Int.fdiv yoe 4 - Int.fdiv yoe 100 + doy
  era * 146097 + doe - 719468

/-- Modelled from the spec: course_week is imported from the common module,
which is not under src/. The spec defines WeekIndex as the floor of the
elapsed days between the reference date and the course start date divided
by 7, clamped to 0 so it never goes negative. -/
def course_week (reference startDate : Date) : Int :=
  max 0 (Int.fdiv (daysFromCivil reference - daysFromCivil startDate) 7)

/-- Success directory path of a per-course task, the format string
data/ followed by the course id, /week_, the week index and a trailing
slash, from SingleCourseLocalTask.output and run. -/
def successDirPath (course_id : String) (week : Int) : String :=
  "data/" ++ course_id ++ "/week_" ++ toString week ++ "/"

/-- Start and end dates of a course run, as parsed from the course_dates
input CSV by _get_course_dates. -/
structure CourseDates where
  startDate : Date
  endDate : Date
deriving DecidableEq

/-- Arguments the local task passes to the downstream Pipeline task. -/
structure PipelineParams where
  path : String
  course_id : String
  course_start_date : Date
  current_course_week : Int
deriving DecidableEq

/-- One container of a Kubernetes job spec. -/
structure Container where
  name : String
  image : String
  args : List String
deriving DecidableEq

/-- Kubernetes job spec, the spec_schema of SingleCourseKubernetesJobTask. -/
structure JobSpec where
  containers : List Container
  imagePullSecrets : List String
deriving DecidableEq

/-- Positional arguments of the first container of a job spec. -/
def specArgs (s : JobSpec) : List String :=
  match s.containers with
  | c :: _ => c.args
  | [] => []

/-- Observable actions of a per-course task run. -/
inductive Event where
  | pipelineRun (p : PipelineParams)
  | markerWrite (path : String)
  | jobSubmit (spec : JobSpec)
deriving DecidableEq

/-- Two-digit zero padding of a day or month number, as strftime prints it. -/
def pad2 (n : Nat) : String :=
  if n < 10 then "0" ++ toString n else toString n

/-- Date formatted YYYY-MM-DD, the strftime format used for the job args. -/
def fmtDate (d : Date) : String :=
  toString d.year ++ "-" ++ pad2 d.month ++ "-" ++ pad2 d.day

/-- Job spec dispatched by SingleCourseKubernetesJobTask.run: the static
spec_schema (container single-course with the learner-attrition image and
the registrykey pull secret) with the positional args list set to the
course id, the week index, the formatted start date and the output path. -/
def k8sJobSpec (course_id : String) (week : Int) (startDate : Date) (path : String) : JobSpec :=
  ⟨[⟨"single-course", "learnerattrition.azurecr.io/learner-attrition-pipeline",
      [course_id, toString week, fmtDate startDate, path]⟩],
    ["registrykey"]⟩

/-- Event trace of SingleCourseLocalTask.run. The course_dates input is the
result of the upstream schedule lookup (the CourseDatesQueryTask chain lives
outside src/, so its outcome is a parameter: Except.error stands for the
LookupError of a course with no schedule row, which aborts the run before any
event). On a resolved schedule the run computes the week from the clock at
run time (nowRun), yields the downstream Pipeline, and only when that yielded
dependency completes does luigi resume the run, which then writes the
zero-byte flag at the path self.output recomputes from the clock at write
time (nowDone). When the pipeline fails the run never resumes and no marker
is written. -/
def localTaskRunEvents (course_id : String) (nowRun nowDone : Date)
    (courseDates : Except Unit CourseDates) (pipelineOk : Bool) : List Event :=
  match courseDates with
  | .error _ => []
  | .ok cd =>
    let w := course_week nowRun cd.startDate
    let path := successDirPath course_id w
    let ev := Event.pipelineRun ⟨path, course_id, cd.startDate, w⟩
    if pipelineOk then
      [ev, Event.markerWrite (successDirPath course_id (course_week nowDone cd.startDate))]
    else
      [ev]

/-- Event trace of SingleCourseKubernetesJobTask.run together with
signal_complete. The run fills the args of spec_schema and submits the job;
the KubernetesJobTask machinery calls signal_complete, which writes the flag
at self.output, only after the job reports success (jobOk). The activeIds
parameter is the content of the edx_course_ids input declared in requires:
the run body never reads it. -/
def k8sRunEvents (course_id : String) (nowRun nowDone : Date)
    (courseDates : Except Unit CourseDates) (activeIds : List String) (jobOk : Bool) :
    List Event :=
  match courseDates with
  | .error _ => []
  | .ok cd =>
    let w := course_week nowRun cd.startDate
    let path := successDirPath course_id w
    let ev := Event.jobSubmit (k8sJobSpec course_id w cd.startDate path)
    if jobOk then
      [ev, Event.markerWrite (successDirPath course_id (course_week nowDone cd.startDate))]
    else
      [ev]

/-- Upstream requirements a per-course task declares in requires. -/
inductive ReqKey where
  | edxCourseIds
  | courseDates (course_id : String)
deriving DecidableEq

/-- Requirements of SingleCourseKubernetesJobTask: the full course id list
resolution and the course dates lookup for its own course. -/
def k8sRequires (course_id : String) : List ReqKey :=
  [ReqKey.edxCourseIds, ReqKey.courseDates course_id]

/-- Requirements of SingleCourseLocalTask: only the course dates lookup. -/
def localRequires (course_id : String) : List ReqKey :=
  [ReqKey.courseDates course_id]

/-- True when the trace contains a job submission. -/
def dispatches (evs : List Event) : Bool :=
  evs.any fun e =>
    match e with
    | Event.jobSubmit _ => true
    | _ => false

/-- One scheduler invocation of SingleCourseLocalTask over a marker store
(the set of flag paths that exist). luigi first checks completeness through
output: when the flag path already exists the task is not run at all and the
execution strategy is not invoked (second component 0). Otherwise the run
yields the Pipeline once (count 1) and, on success, writes the flag. -/
def luigiInvokeLocal (course_id : String) (now : Date) (cd : CourseDates)
    (pipelineOk : Bool) (store : List String) : List String × Nat :=
  let path := successDirPath course_id (course_week now cd.startDate)
  if path ∈ store then
    (store, 0)
  else if pipelineOk then
    (path :: store, 1)
  else
    (store, 1)

/-- Marker-write paths of a trace. -/
def markerWritesOf (evs : List Event) : List String :=
  evs.filterMap fun e =>
    match e with
    | Event.markerWrite p => some p
    | _ => none

/-- Fan-out of PipelineRunner.run in local mode: one SingleCourseLocalTask
per course id; each subtree runs independently, and the pairs (course id,
flag path it wrote) are collected. A LookupError in one subtree leaves the
other subtrees untouched. -/
def fanOutMarkerWrites (courses : List String) (sched : String → Except Unit CourseDates)
    (now : Date) (pipelineOk : String → Bool) : List (String × String) :=
  match courses with
  | [] => []
  | c :: cs =>
    (markerWritesOf (localTaskRunEvents c now now (sched c) (pipelineOk c))).map (fun p => (c, p))
      ++ fanOutMarkerWrites cs sched now pipelineOk

/-- Per-course tasks PipelineRunner.run can yield. -/
inductive PerCourseTask where
  | localTask (course_id : String)
  | k8sTask (course_id : String)
deriving DecidableEq

/-- Tasks yielded by PipelineRunner.run given the parsed input course ids:
in local mode one SingleCourseLocalTask per id from the input file; in
remote mode a single SingleCourseKubernetesJobTask with a hardcoded course
id (the per-course comprehension over the query result is commented out in
the source). -/
def pipelineRunnerYieldedTasks (isLocal : Bool) (inputIds : List String) : List PerCourseTask :=
  if isLocal then
    inputIds.map PerCourseTask.localTask
  else
    [PerCourseTask.k8sTask "Microsoft+DAT222x+4T2017"]

/-- Row of the DimCourse table the EdxCourseIdsTask query reads. -/
structure DimCourseRow where
  courseRunId : String
  courseRunStartDate : Date
  courseRunEndDate : Date
deriving DecidableEq

/-- Strict order on dates, the comparison the SQL WHERE clause performs. -/
def dateLt (a b : Date) : Bool :=
  decide (daysFromCivil a < daysFromCivil b)

/-- Result of EdxCourseIdsTask.run: the distinct CourseRunIds of the rows
whose CourseRunStartDate is strictly before the invocation date and whose
CourseRunEndDate is strictly after it. -/
def edxCourseIdsRun (today : Date) (dimCourse : List DimCourseRow) : List String :=
  ((dimCourse.filter fun r =>
      dateLt r.courseRunStartDate today && dateLt today r.courseRunEndDate).map
    fun r => r.courseRunId).dedup

/-- Mutable attributes SingleCourse task objects carry; output assigns all
three on every call. -/
structure TaskState where
  course_start_date : Option Date
  current_course_week : Option Int
  success_dir_path : Option String
deriving DecidableEq

/-- SingleCourseLocalTask.output: reads the wall clock (now), resolves the
course dates, assigns course_start_date, current_course_week and
success_dir_path onto the task object regardless of their previous values,
and returns the flag target path. -/
def localTaskOutput (course_id : String) (cd : CourseDates) (now : Date)
    (s : TaskState) : TaskState × String :=
  let startDate := cd.startDate
  let w := course_week now startDate
  let path := successDirPath course_id w
  (⟨some startDate, some w, some path⟩, path)

/-- SingleCourseKubernetesJobTask.output, textually identical to
SingleCourseLocalTask.output. -/
def k8sTaskOutput (course_id : String) (cd : CourseDates) (now : Date)
    (s : TaskState) : TaskState × String :=
  let startDate := cd.startDate
  let w := course_week now startDate
  let path := successDirPath course_id w
  (⟨some startDate, some w, some path⟩, path)

example : daysFromCivil ⟨1970, 1, 1⟩ = 0 := by decide
example : daysFromCivil ⟨2017, 1, 2⟩ - daysFromCivil ⟨2017, 1, 1⟩ = 1 := by decide
example : course_week ⟨2017, 1, 16⟩ ⟨2017, 1, 2⟩ = 2 := by decide
example : localTaskRunEvents "c" ⟨2017, 1, 9⟩ ⟨2017, 1, 9⟩
    (Except.ok ⟨⟨2017, 1, 2⟩, ⟨2017, 6, 1⟩⟩) true
    = [Event.pipelineRun ⟨"data/c/week_1/", "c", ⟨2017, 1, 2⟩, 1⟩,
       Event.markerWrite "data/c/week_1/"] := by decide

/-- C3: course_week equals the floor of the elapsed days divided by 7, is 0
whenever the reference date is on or before the start date, and with start
date 2017-01-02 the references 2017-01-01, 2017-01-09, 2017-01-15 and
2017-01-16 give weeks 0, 1, 1 and 2. -/
theorem C3_course_week_formula :
    (∀ r s : Date,
        course_week r s = max 0 (Int.fdiv (daysFromCivil r - daysFromCivil s) 7))
    ∧ (∀ r s : Date, daysFromCivil r ≤ daysFromCivil s → course_week r s = 0)
    ∧ course_week ⟨2017, 1, 1⟩ ⟨2017, 1, 2⟩ = 0
    ∧ course_week ⟨2017, 1, 9⟩ ⟨2017, 1, 2⟩ = 1
    ∧ course_week ⟨2017, 1, 15⟩ ⟨2017, 1, 2⟩ = 1
    ∧ course_week ⟨2017, 1, 16⟩ ⟨2017, 1, 2⟩ = 2 := by
  refine ⟨fun r s => rfl, fun r s h => ?_, by decide, by decide, by decide, by decide⟩
  have h7 : (0 : Int) ≤ 7 := by norm_num
  have hd : daysFromCivil r - daysFromCivil s ≤ 0 := by omega
  have hle : Int.fdiv (daysFromCivil r - daysFromCivil s) 7 ≤ 0 := by
    rw [Int.fdiv_eq_ediv _ h7]
    have := Int.ediv_le_ediv (by norm_num : (0 : Int) < 7) hd
    simpa using this
  unfold course_week
  exact max_eq_left hle

/-- C8: for a fixed start date, course_week is monotonically non-decreasing
in the reference date. -/
theorem C8_course_week_monotone (r1 r2 s : Date)
    (h : daysFromCivil r1 ≤ daysFromCivil r2) :
    course_week r1 s ≤ course_week r2 s := by
  unfold course_week
  have h7 : (0 : Int) ≤ 7 := by norm_num
  refine max_le_max (le_refl 0) ?_
  rw [Int.fdiv_eq_ediv _ h7, Int.fdiv_eq_ediv _ h7]
  exact Int.ediv_le_ediv (by norm_num) (by omega)

/-- Witness for C8 at the concrete references 2017-01-09 and 2017-01-16. -/
theorem C8_course_week_monotone_witness :
    daysFromCivil ⟨2017, 1, 9⟩ ≤ daysFromCivil ⟨2017, 1, 16⟩
    ∧ course_week ⟨2017, 1, 9⟩ ⟨2017, 1, 2⟩ ≤ course_week ⟨2017, 1, 16⟩ ⟨2017, 1, 2⟩ :=
  ⟨by decide, C8_course_week_monotone ⟨2017, 1, 9⟩ ⟨2017, 1, 16⟩ ⟨2017, 1, 2⟩ (by decide)⟩

/-- C1: a completion-marker write appears in a run trace only when the
execution succeeded, and then it is the last event, after the pipeline run
(local task) or the job submission (Kubernetes task); a failed execution
leaves no marker write in the trace. -/
theorem C1_marker_only_after_success :
    (∀ cid n1 n2 sched pok p,
        Event.markerWrite p ∈ localTaskRunEvents cid n1 n2 sched pok →
          pok = true ∧ ∃ params, localTaskRunEvents cid n1 n2 sched pok
            = [Event.pipelineRun params, Event.markerWrite p])
    ∧ (∀ cid n1 n2 sched ids jok p,
        Event.markerWrite p ∈ k8sRunEvents cid n1 n2 sched ids jok →
          jok = true ∧ ∃ spec, k8sRunEvents cid n1 n2 sched ids jok
            = [Event.jobSubmit spec, Event.markerWrite p])
    ∧ (∀ cid n1 n2 sched p,
        Event.markerWrite p ∉ localTaskRunEvents cid n1 n2 sched false)
    ∧ (∀ cid n1 n2 sched ids p,
        Event.markerWrite p ∉ k8sRunEvents cid n1 n2 sched ids false) := by
  refine ⟨?_, ?_, ?_, ?_⟩
  · intro cid n1 n2 sched pok p h
    cases sched with
    | error e => simp [localTaskRunEvents] at h
    | ok cd =>
      cases pok with
      | false => simp [localTaskRunEvents] at h
      | true =>
        simp only [localTaskRunEvents, if_true, List.mem_cons, List.not_mem_nil,
          or_false] at h
        rcases h with h | h
        · exact absurd h (by simp)
        · rw [Event.markerWrite.injEq] at h
          subst h
          exact ⟨rfl, ⟨_, rfl⟩⟩
  · intro cid n1 n2 sched ids jok p h
    cases sched with
    | error e => simp [k8sRunEvents] at h
    | ok cd =>
      cases jok with
      | false => simp [k8sRunEvents] at h
      | true =>
        simp only [k8sRunEvents, if_true, List.mem_cons, List.not_mem_nil,
          or_false] at h
        rcases h with h | h
        · exact absurd h (by simp)
        · rw [Event.markerWrite.injEq] at h
          subst h
          exact ⟨rfl, ⟨_, rfl⟩⟩
  · intro cid n1 n2 sched p h
    cases sched with
    | error e => simp [localTaskRunEvents] at h
    | ok cd => simp [localTaskRunEvents] at h
  · intro cid n1 n2 sched ids p h
    cases sched with
    | error e => simp [k8sRunEvents] at h
    | ok cd => simp [k8sRunEvents] at h

/-- C2: starting from a store without the marker, a successful scheduler
invocation of SingleCourseLocalTask leaves the marker at the week-keyed path
in the store, and a second invocation in the same week is a no-op: the store
is unchanged and the execution strategy is invoked 0 further times, so the
downstream pipeline runs exactly once across the two invocations. -/
theorem C2_completion_idempotence (cid : String) (n1 n2 : Date) (cd : CourseDates)
    (store : List String)
    (hweek : course_week n1 cd.startDate = course_week n2 cd.startDate)
    (hnew : successDirPath cid (course_week n1 cd.startDate) ∉ store) :
    successDirPath cid (course_week n1 cd.startDate)
        ∈ (luigiInvokeLocal cid n1 cd true store).1
    ∧ (luigiInvokeLocal cid n2 cd true (luigiInvokeLocal cid n1 cd true store).1).1
        = (luigiInvokeLocal cid n1 cd true store).1
    ∧ (luigiInvokeLocal cid n1 cd true store).2 = 1
    ∧ (luigiInvokeLocal cid n2 cd true (luigiInvokeLocal cid n1 cd true store).1).2 = 0 := by
  simp only [luigiInvokeLocal, ← hweek]
  rw [if_neg hnew]
  simp

/-- Witness for C2: course c starting 2017-01-02, first invocation on
2017-01-09 and second on 2017-01-10, both in week 1, over an empty store. -/
theorem C2_completion_idempotence_witness :
    successDirPath "c" (course_week ⟨2017, 1, 9⟩ ⟨2017, 1, 2⟩)
        ∈ (luigiInvokeLocal "c" ⟨2017, 1, 9⟩ ⟨⟨2017, 1, 2⟩, ⟨2017, 6, 1⟩⟩ true []).1
    ∧ (luigiInvokeLocal "c" ⟨2017, 1, 10⟩ ⟨⟨2017, 1, 2⟩, ⟨2017, 6, 1⟩⟩ true
        (luigiInvokeLocal "c" ⟨2017, 1, 9⟩ ⟨⟨2017, 1, 2⟩, ⟨2017, 6, 1⟩⟩ true []).1).1
        = (luigiInvokeLocal "c" ⟨2017, 1, 9⟩ ⟨⟨2017, 1, 2⟩, ⟨2017, 6, 1⟩⟩ true []).1
    ∧ (luigiInvokeLocal "c" ⟨2017, 1, 9⟩ ⟨⟨2017, 1, 2⟩, ⟨2017, 6, 1⟩⟩ true []).2 = 1
    ∧ (luigiInvokeLocal "c" ⟨2017, 1, 10⟩ ⟨⟨2017, 1, 2⟩, ⟨2017, 6, 1⟩⟩ true
        (luigiInvokeLocal "c" ⟨2017, 1, 9⟩ ⟨⟨2017, 1, 2⟩, ⟨2017, 6, 1⟩⟩ true []).1).2 = 0 :=
  C2_completion_idempotence "c" ⟨2017, 1, 9⟩ ⟨2017, 1, 10⟩ ⟨⟨2017, 1, 2⟩, ⟨2017, 6, 1⟩⟩ []
    (by decide) (by decide)

/-- C4: in local mode PipelineRunner.run yields one SingleCourseLocalTask per
resolved course id, but in remote mode it yields a single hardcoded
SingleCourseKubernetesJobTask and ignores the resolved id list, so the
claimed one-task-per-id expansion fails in remote mode: with resolved ids
A and B it does not yield the two per-course Kubernetes tasks. -/
theorem C4_remote_fanout_hardcoded :
    pipelineRunnerYieldedTasks true ["A", "B"]
        = [PerCourseTask.localTask "A", PerCourseTask.localTask "B"]
    ∧ pipelineRunnerYieldedTasks false ["A", "B"]
        = [PerCourseTask.k8sTask "Microsoft+DAT222x+4T2017"]
    ∧ pipelineRunnerYieldedTasks false ["A", "B"]
        ≠ [PerCourseTask.k8sTask "A", PerCourseTask.k8sTask "B"] := by
  decide

/-- C5 counterexample: the remote task for course X dispatches its job even
though X is not in the resolved active course set, so no membership
validation happens before dispatch. -/
theorem C5_no_validation_counterexample :
    ("X" ∈ (["A", "B"] : List String) → False)
    ∧ dispatches (k8sRunEvents "X" ⟨2017, 1, 9⟩ ⟨2017, 1, 9⟩
        (Except.ok ⟨⟨2017, 1, 2⟩, ⟨2017, 6, 1⟩⟩) ["A", "B"] true) = true := by
  decide

/-- C5 amended: SingleCourseKubernetesJobTask.requires lists the full course
id resolution next to the course-dates dependency, but the run never
consults the resolved id list: the dispatched trace is identical for any two
active-id lists, so no membership validation precedes dispatch. -/
theorem C5_requires_full_list_without_validation :
    (∀ cid, k8sRequires cid = [ReqKey.edxCourseIds, ReqKey.courseDates cid])
    ∧ (∀ cid n1 n2 sched ids1 ids2 jok,
        k8sRunEvents cid n1 n2 sched ids1 jok = k8sRunEvents cid n1 n2 sched ids2 jok) :=
  ⟨fun _ => rfl, fun _ _ _ _ _ _ _ => rfl⟩

/-- C6: every job spec submitted by the remote task carries as positional
container arguments exactly the course id, the week index rendered as a
string, the start date formatted YYYY-MM-DD, and the output path, in that
order. -/
theorem C6_job_spec_args (cid : String) (n1 n2 : Date) (sched : Except Unit CourseDates)
    (ids : List String) (jok : Bool) (spec : JobSpec)
    (h : Event.jobSubmit spec ∈ k8sRunEvents cid n1 n2 sched ids jok) :
    ∃ cd, sched = Except.ok cd
      ∧ specArgs spec
          = [cid, toString (course_week n1 cd.startDate), fmtDate cd.startDate,
              successDirPath cid (course_week n1 cd.startDate)] := by
  cases sched with
  | error e => simp [k8sRunEvents] at h
  | ok cd =>
    refine ⟨cd, rfl, ?_⟩
    cases jok with
    | false =>
      simp only [k8sRunEvents, Bool.false_eq_true, if_false, List.mem_singleton] at h
      rw [Event.jobSubmit.injEq] at h
      subst h
      rfl
    | true =>
      simp only [k8sRunEvents, if_true, List.mem_cons, List.not_mem_nil, or_false] at h
      rcases h with h | h
      · rw [Event.jobSubmit.injEq] at h
        subst h
        rfl
      · exact absurd h (by simp)

/-- Witness for C6: the spec dispatched for course c on 2017-01-09. -/
theorem C6_job_spec_args_witness :
    Event.jobSubmit (k8sJobSpec "c" 1 ⟨2017, 1, 2⟩ "data/c/week_1/")
        ∈ k8sRunEvents "c" ⟨2017, 1, 9⟩ ⟨2017, 1, 9⟩
            (Except.ok ⟨⟨2017, 1, 2⟩, ⟨2017, 6, 1⟩⟩) [] true
    ∧ ∃ cd, (Except.ok ⟨⟨2017, 1, 2⟩, ⟨2017, 6, 1⟩⟩ : Except Unit CourseDates) = Except.ok cd
        ∧ specArgs (k8sJobSpec "c" 1 ⟨2017, 1, 2⟩ "data/c/week_1/")
            = ["c", toString (course_week ⟨2017, 1, 9⟩ cd.startDate), fmtDate cd.startDate,
                successDirPath "c" (course_week ⟨2017, 1, 9⟩ cd.startDate)] :=
  ⟨by decide,
    C6_job_spec_args "c" ⟨2017, 1, 9⟩ ⟨2017, 1, 9⟩
      (Except.ok ⟨⟨2017, 1, 2⟩, ⟨2017, 6, 1⟩⟩) [] true
      (k8sJobSpec "c" 1 ⟨2017, 1, 2⟩ "data/c/week_1/") (by decide)⟩

/-- C7: in the local-mode fan-out, every course whose schedule lookup
resolves and whose pipeline succeeds gets its week-keyed marker written, no
matter which other courses fail their lookup, while a course whose lookup
raises LookupError contributes no marker write at all. -/
theorem C7_lookup_failure_isolated (courses : List String)
    (sched : String → Except Unit CourseDates) (now : Date) (pipelineOk : String → Bool) :
    (∀ c cd, c ∈ courses → sched c = Except.ok cd → pipelineOk c = true →
        (c, successDirPath c (course_week now cd.startDate))
          ∈ fanOutMarkerWrites courses sched now pipelineOk)
    ∧ (∀ c p, sched c = Except.error () →
        (c, p) ∉ fanOutMarkerWrites courses sched now pipelineOk) := by
  induction courses with
  | nil =>
    constructor
    · intro c cd hmem
      exact absurd hmem (List.not_mem_nil c)
    · intro c p herr h
      simp [fanOutMarkerWrites] at h
  | cons a cs ih =>
    constructor
    · intro c cd hmem hok hpok
      rcases List.mem_cons.mp hmem with heq | hmem2
      · subst heq
        apply List.mem_append_left
        simp [localTaskRunEvents, markerWritesOf, hok, hpok]
      · exact List.mem_append_right _ (ih.1 c cd hmem2 hok hpok)
    · intro c p herr h
      rcases List.mem_append.mp h with h1 | h2
      · rcases List.mem_map.mp h1 with ⟨q, hq, heq⟩
        simp only [Prod.mk.injEq] at heq
        rcases heq with ⟨hac, hqp⟩
        subst hac
        rw [herr] at hq
        simp [localTaskRunEvents, markerWritesOf] at hq
      · exact ih.2 c p herr h2

/-- C9: the id list EdxCourseIdsTask produces contains exactly the distinct
CourseRunIds of DimCourse rows whose start date is strictly before the
invocation date and whose end date is strictly after it; an id all of whose
rows start on or after the invocation date, or end on or before it, is
excluded. -/
theorem C9_active_course_query (id : String) (today : Date) (table : List DimCourseRow) :
    (id ∈ edxCourseIdsRun today table ↔
      ∃ r, r ∈ table ∧ r.courseRunId = id
        ∧ daysFromCivil r.courseRunStartDate < daysFromCivil today
        ∧ daysFromCivil today < daysFromCivil r.courseRunEndDate)
    ∧ ((∀ r, r ∈ table → r.courseRunId = id →
          daysFromCivil today ≤ daysFromCivil r.courseRunStartDate
            ∨ daysFromCivil r.courseRunEndDate ≤ daysFromCivil today) →
        id ∉ edxCourseIdsRun today table) := by
  have hiff : id ∈ edxCourseIdsRun today table ↔
      ∃ r, r ∈ table ∧ r.courseRunId = id
        ∧ daysFromCivil r.courseRunStartDate < daysFromCivil today
        ∧ daysFromCivil today < daysFromCivil r.courseRunEndDate := by
    unfold edxCourseIdsRun
    rw [List.mem_dedup, List.mem_map]
    constructor
    · rintro ⟨r, hr, rfl⟩
      rw [List.mem_filter] at hr
      rcases hr with ⟨hrt, hcond⟩
      simp only [dateLt, Bool.and_eq_true, decide_eq_true_eq] at hcond
      exact ⟨r, hrt, rfl, hcond.1, hcond.2⟩
    · rintro ⟨r, hrt, hid, hs, he⟩
      refine ⟨r, ?_, hid⟩
      rw [List.mem_filter]
      exact ⟨hrt, by simp [dateLt, hs, he]⟩
  refine ⟨hiff, fun hall hmem => ?_⟩
  rcases hiff.mp hmem with ⟨r, hrt, hid, hs, he⟩
  rcases hall r hrt hid with h | h <;> omega

/-- C10: output is not a side-effect-free read: on every call it assigns the
course start date, the current course week computed from the clock, and the
success directory path onto the task state, discarding whatever was there,
and two calls on the same task straddling a week boundary return different
marker paths (shown for both the local and the Kubernetes task at reference
clocks 2017-01-08 and 2018-01-09 for a course starting 2017-01-02). -/
theorem C10_output_mutates_and_reads_clock :
    (∀ cid cd now s,
        (localTaskOutput cid cd now s).1
          = ⟨some cd.startDate, some (course_week now cd.startDate),
              some (successDirPath cid (course_week now cd.startDate))⟩
        ∧ (k8sTaskOutput cid cd now s).1
          = ⟨some cd.startDate, some (course_week now cd.startDate),
              some (successDirPath cid (course_week now cd.startDate))⟩
        ∧ (localTaskOutput cid cd now s).2
          = successDirPath cid (course_week now cd.startDate)
        ∧ (k8sTaskOutput cid cd now s).2
          = successDirPath cid (course_week now cd.startDate))
    ∧ (∀ s : TaskState,
        (localTaskOutput "c" ⟨⟨2017, 1, 2⟩, ⟨2017, 6, 1⟩⟩ ⟨2017, 1, 8⟩ s).2
          ≠ (localTaskOutput "c" ⟨⟨2017, 1, 2⟩, ⟨2017, 6, 1⟩⟩ ⟨2018, 1, 9⟩ s).2)
    ∧ (∀ s : TaskState,
        (k8sTaskOutput "c" ⟨⟨2017, 1, 2⟩, ⟨2017, 6, 1⟩⟩ ⟨2017, 1, 8⟩ s).2
          ≠ (k8sTaskOutput "c" ⟨⟨2017, 1, 2⟩, ⟨2017, 6, 1⟩⟩ ⟨2018, 1, 9⟩ s).2) :=
  ⟨fun _ _ _ _ => ⟨rfl, rfl, rfl, rfl⟩,
    fun _ => by
      show successDirPath "c" (course_week ⟨2017, 1, 8⟩ ⟨2017, 1, 2⟩)
        ≠ successDirPath "c" (course_week ⟨2018, 1, 9⟩ ⟨2017, 1, 2⟩)
      decide,
    fun _ => by
      show successDirPath "c" (course_week ⟨2017, 1, 8⟩ ⟨2017, 1, 2⟩)
        ≠ successDirPath "c" (course_week ⟨2018, 1, 9⟩ ⟨2017, 1, 2⟩)
      decide⟩
